import Mathlib

/-
Verification development for the local-first sync core of the
rn-expo-training repository.

Part 1 models the zustand todo store (src/shared/stores/index.ts):
the OptimisticTodo list, the incrementally maintained aggregate stats,
and the data/optimistic mutation actions.

Part 2 models the MMKV-backed sync service (src/shared/services/sync.ts)
together with the zustand sync store (SyncState / SyncStatus).

Conventions of the embedding:
- JavaScript numbers used as counters and timestamps become Int.
- A TypeScript optional field becomes an Option.
- Array.findIndex followed by an in-place write or splice on the found
  index is embedded as structural recursion replacing or removing the
  first matching element (setFirst / removeFirst below).
- JSON.stringify / JSON.parse round-tripping through the MMKV string cell
  is external library behaviour and is modelled as exact: the cell either
  holds a parsed queue value, is absent, or holds text the parser rejects.
-/

namespace TodoApp

/-- Priority of a todo, from the source union type low | medium | high. -/
inductive Priority where
  | low
  | medium
  | high
deriving DecidableEq, Repr

/-- A todo record as held in the todo store. The two trailing optional
fields model the underscore-prefixed transient fields of OptimisticTodo
(_isOptimistic and _originalId) in src/shared/stores/index.ts. -/
structure Todo where
  id : String
  user_id : String
  title : String
  description : Option String := none
  completed : Bool
  priority : Priority
  due_date : Option Int := none
  created_at : Int
  updated_at : Int
  synced : Bool
  isOptimistic : Option Bool := none
  originalId : Option String := none
deriving DecidableEq, Repr

/-- A Partial Todo as accepted by updateTodo and optimisticUpdate: every
field may be present or absent. A present field overrides the stored one
when spread over it. -/
structure TodoUpdates where
  id : Option String := none
  user_id : Option String := none
  title : Option String := none
  description : Option (Option String) := none
  completed : Option Bool := none
  priority : Option Priority := none
  due_date : Option (Option Int) := none
  created_at : Option Int := none
  updated_at : Option Int := none
  synced : Option Bool := none
deriving DecidableEq, Repr

/-- Object spread of a Partial Todo over a todo. The transient optimistic
fields are not part of Partial Todo and are kept. -/
def mergeTodo (t : Todo) (u : TodoUpdates) : Todo :=
  { id := u.id.getD t.id
    user_id := u.user_id.getD t.user_id
    title := u.title.getD t.title
    description := u.description.getD t.description
    completed := u.completed.getD t.completed
    priority := u.priority.getD t.priority
    due_date := u.due_date.getD t.due_date
    created_at := u.created_at.getD t.created_at
    updated_at := u.updated_at.getD t.updated_at
    synced := u.synced.getD t.synced
    isOptimistic := t.isOptimistic
    originalId := t.originalId }

/-- The aggregate stats record of the todo store. Counters are Int since
the incremental updates subtract freely. -/
structure Stats where
  total : Int
  completed : Int
  pending : Int
  overdue : Int
deriving DecidableEq, Repr

/-- The filters record of the todo store (defaultFilters in the source). -/
structure TodoFilters where
  completed : Option Bool := none
  priority : Option Priority := none
  user_id : Option String := none
  search : Option String := none
  due_date_from : Option Int := none
  due_date_to : Option Int := none
  limit : Int := 50
  offset : Int := 0
deriving DecidableEq, Repr

/-- The full todo store state: data, filters, UI flags, error and stats. -/
structure TodoState where
  todos : List Todo
  filters : TodoFilters
  isLoading : Bool
  isCreating : Bool
  isUpdating : Bool
  isDeleting : Bool
  error : Option String
  stats : Stats
deriving DecidableEq, Repr

/-- The initial store state from the create call in the source. -/
def initialTodoState : TodoState :=
  { todos := []
    filters := {}
    isLoading := false
    isCreating := false
    isUpdating := false
    isDeleting := false
    error := none
    stats := { total := 0, completed := 0, pending := 0, overdue := 0 } }

/-- Embedding of findIndex on the id followed by replacing the element at
the found index: yields the previous element and the updated list, or none
when findIndex yields -1. -/
def setFirst (id : String) (f : Todo → Todo) : List Todo → Option (Todo × List Todo)
  | [] => none
  | t :: ts =>
    if t.id == id then some (t, f t :: ts)
    else (setFirst id f ts).map fun p => (p.1, t :: p.2)

/-- Embedding of findIndex on the id followed by splice(index, 1): yields
the removed element and the remaining list, or none when findIndex
yields -1. -/
def removeFirst (id : String) : List Todo → Option (Todo × List Todo)
  | [] => none
  | t :: ts =>
    if t.id == id then some (t, ts)
    else (removeFirst id ts).map fun p => (p.1, t :: p.2)

/-- Stats adjustment performed by additions: total plus one and the bucket
matching the completed flag plus one. -/
def statsAfterInsert (st : Stats) (completed : Bool) : Stats :=
  if completed then { st with total := st.total + 1, completed := st.completed + 1 }
  else { st with total := st.total + 1, pending := st.pending + 1 }

/-- Stats adjustment performed by removals: total minus one and the bucket
matching the completed flag minus one. -/
def statsAfterRemove (st : Stats) (completed : Bool) : Stats :=
  if completed then { st with total := st.total - 1, completed := st.completed - 1 }
  else { st with total := st.total - 1, pending := st.pending - 1 }

/-- Stats adjustment performed by updateTodo and optimisticUpdate when the
updates carry a completed flag that differs from the stored one. -/
def statsAfterToggle (st : Stats) (newCompleted : Bool) : Stats :=
  if newCompleted then { st with completed := st.completed + 1, pending := st.pending - 1 }
  else { st with completed := st.completed - 1, pending := st.pending + 1 }

/-- updateTodo from the todo store: merge the updates into the first todo
with the given id and adjust completed and pending when the completed flag
changed; a miss leaves the state untouched. -/
def updateTodo (id : String) (u : TodoUpdates) (s : TodoState) : TodoState :=
  match setFirst id (fun t => mergeTodo t u) s.todos with
  | none => s
  | some (old, todos) =>
    let stats :=
      match u.completed with
      | some b => if b ≠ old.completed then statsAfterToggle s.stats b else s.stats
      | none => s.stats
    { s with todos := todos, stats := stats }

/-- deleteTodo from the todo store: splice out the first todo with the
given id and decrement total and its bucket; a miss leaves the state
untouched. -/
def deleteTodo (id : String) (s : TodoState) : TodoState :=
  match removeFirst id s.todos with
  | none => s
  | some (old, todos) =>
    { s with todos := todos, stats := statsAfterRemove s.stats old.completed }

/-- The creation payload of optimisticAdd, a Todo without id, timestamps
and synced flag. -/
structure TodoData where
  user_id : String
  title : String
  description : Option String := none
  completed : Bool
  priority : Priority
  due_date : Option Int := none
deriving DecidableEq, Repr

/-- optimisticAdd from the todo store. The generated temp id and the
Date.now() value are environment inputs of the embedding. The new todo is
unshifted onto the list and total and its bucket are incremented. -/
def optimisticAdd (tempId : String) (nowMs : Int) (d : TodoData) (s : TodoState) : TodoState :=
  let t : Todo :=
    { id := tempId
      user_id := d.user_id
      title := d.title
      description := d.description
      completed := d.completed
      priority := d.priority
      due_date := d.due_date
      created_at := nowMs
      updated_at := nowMs
      synced := false
      isOptimistic := some true }
  { s with todos := t :: s.todos, stats := statsAfterInsert s.stats t.completed }

/-- The merge done by optimisticUpdate: spread the updates, set the
optimistic flag and keep the original id (falling back to the current
id when no original id is recorded yet). -/
def optimisticMerge (t : Todo) (u : TodoUpdates) : Todo :=
  { mergeTodo t u with
    isOptimistic := some true
    originalId := some (t.originalId.getD t.id) }

/-- optimisticUpdate from the todo store: like updateTodo but marking the
todo optimistic and recording its original id. -/
def optimisticUpdate (id : String) (u : TodoUpdates) (s : TodoState) : TodoState :=
  match setFirst id (fun t => optimisticMerge t u) s.todos with
  | none => s
  | some (old, todos) =>
    let stats :=
      match u.completed with
      | some b => if b ≠ old.completed then statsAfterToggle s.stats b else s.stats
      | none => s.stats
    { s with todos := todos, stats := stats }

/-- optimisticDelete from the todo store: identical body to deleteTodo. -/
def optimisticDelete (id : String) (s : TodoState) : TodoState :=
  match removeFirst id s.todos with
  | none => s
  | some (old, todos) =>
    { s with todos := todos, stats := statsAfterRemove s.stats old.completed }

/-- revertOptimistic from the todo store: identical body to deleteTodo,
keyed by the temp id. -/
def revertOptimistic (tempId : String) (s : TodoState) : TodoState :=
  match removeFirst tempId s.todos with
  | none => s
  | some (old, todos) =>
    { s with todos := todos, stats := statsAfterRemove s.stats old.completed }

/-- confirmOptimistic from the todo store: replace the first todo with the
temp id by the real todo; stats are not touched. -/
def confirmOptimistic (tempId : String) (realTodo : Todo) (s : TodoState) : TodoState :=
  match setFirst tempId (fun _ => realTodo) s.todos with
  | none => s
  | some (_, todos) => { s with todos := todos }

/-- Whether a todo counts as overdue for calculateStats: the due date is
truthy (a JS number is truthy when nonzero) and lies before now. -/
def isOverdue (nowMs : Int) (t : Todo) : Bool :=
  match t.due_date with
  | none => false
  | some d => d != 0 && decide (d < nowMs)

/-- calculateStats from the todo store: total is the list length and one
pass over the list fills the completed, pending and overdue counters. -/
def calculateStats (nowMs : Int) (todos : List Todo) : Stats :=
  todos.foldl
    (fun st t =>
      if t.completed then { st with completed := st.completed + 1 }
      else
        { st with
          pending := st.pending + 1
          overdue := if isOverdue nowMs t then st.overdue + 1 else st.overdue })
    { total := (todos.length : Int), completed := 0, pending := 0, overdue := 0 }

/-- One optimistic-layer store operation, the alphabet of claim C3. The
environment inputs of optimisticAdd travel with the operation. -/
inductive TodoOp where
  | add (tempId : String) (nowMs : Int) (d : TodoData)
  | update (id : String) (u : TodoUpdates)
  | delete (id : String)
  | revert (tempId : String)
  | confirm (tempId : String) (realTodo : Todo)
deriving Repr

/-- Interpretation of one store operation. -/
def applyTodoOp (s : TodoState) : TodoOp → TodoState
  | .add tempId nowMs d => optimisticAdd tempId nowMs d s
  | .update id u => optimisticUpdate id u s
  | .delete id => optimisticDelete id s
  | .revert tempId => revertOptimistic tempId s
  | .confirm tempId r => confirmOptimistic tempId r s

/-- Interpretation of a finite sequence of store operations. -/
def runTodoOps (s : TodoState) (ops : List TodoOp) : TodoState :=
  ops.foldl applyTodoOp s

end TodoApp

namespace SyncApp

/-- The sync action type union CREATE | UPDATE | DELETE. -/
inductive SyncActionType where
  | CREATE
  | UPDATE
  | DELETE
deriving DecidableEq, Repr

/-- The opaque data payload of a sync action. The id field is the one part
the service itself reads (updateOnServer and deleteOnServer address the
entity by data.id); the rest of the payload is opaque to the sync code and
modelled as a string body. -/
structure SyncData where
  id : String
  body : String := ""
deriving DecidableEq, Repr

/-- A sync queue entry (SyncAction in the shared database types). -/
structure SyncAction where
  id : String
  type : SyncActionType
  table : String
  data : SyncData
  timestamp : Int
  retries : Int
deriving DecidableEq, Repr

/-- The enqueue payload of addToSyncQueue and addToQueue: a sync action
without the generated id, timestamp and retries. -/
structure SyncActionInput where
  type : SyncActionType
  table : String
  data : SyncData
deriving DecidableEq, Repr

/-- The parsed content of the MMKV string cell sync_queue. The cell may be
absent (getString yields undefined or the falsy empty string), hold text
that JSON.parse rejects, or hold a serialized queue; the JSON round-trip
through the cell is modelled as exact. -/
inductive SyncCell where
  | absent
  | unparseable
  | stored (queue : List SyncAction)
deriving DecidableEq, Repr

namespace SyncStorageService

/-- getSyncQueue: parse the cell, returning the empty list when the cell is
absent or when parsing raises (the catch path). Total by construction. -/
def getSyncQueue : SyncCell → List SyncAction
  | .absent => []
  | .unparseable => []
  | .stored q => q

/-- setSyncQueue: overwrite the cell with the serialized queue. -/
def setSyncQueue (q : List SyncAction) (_c : SyncCell) : SyncCell := .stored q

/-- addToSyncQueue: read the queue, push the action, write back. -/
def addToSyncQueue (a : SyncAction) (c : SyncCell) : SyncCell :=
  setSyncQueue (getSyncQueue c ++ [a]) c

/-- removeFromSyncQueue: read the queue, keep the actions with a different
id, write back. -/
def removeFromSyncQueue (actionId : String) (c : SyncCell) : SyncCell :=
  setSyncQueue ((getSyncQueue c).filter fun a => a.id != actionId) c

end SyncStorageService

/-- A durable-store row as the sync service sees it: the id and the synced
flag; the remaining columns are opaque to the sync code. -/
structure DbEntity where
  id : String
  synced : Bool
deriving DecidableEq, Repr

/-- markAsSynced from the database service: set synced on every row with
the given id. -/
def markAsSynced (id : String) (l : List DbEntity) : List DbEntity :=
  l.map fun e => if e.id == id then { e with synced := true } else e

/-- The SyncStatus record of the zustand sync store. -/
structure SyncStatus where
  last_sync_time : Option Int
  pending_actions : Int
  is_syncing : Bool
  last_error : Option String
deriving DecidableEq, Repr

/-- defaultStatus from the sync store. -/
def defaultStatus : SyncStatus :=
  { last_sync_time := none, pending_actions := 0, is_syncing := false, last_error := none }

/-- The zustand sync store state: status, the store-local action queue,
configuration and counters. -/
structure SyncStoreState where
  status : SyncStatus
  queue : List SyncAction
  autoSyncEnabled : Bool
  syncInterval : Int
  totalSynced : Int
  totalErrors : Int
  lastSyncDuration : Int
deriving DecidableEq, Repr

/-- The initial sync store state from the create call. -/
def initialSyncStoreState : SyncStoreState :=
  { status := defaultStatus
    queue := []
    autoSyncEnabled := true
    syncInterval := 300000
    totalSynced := 0
    totalErrors := 0
    lastSyncDuration := 0 }

/-- Construction of a queued action as done by both enqueue entry points:
generated id and timestamp are environment inputs, retries starts at 0. -/
def mkSyncAction (genId : String) (nowMs : Int) (p : SyncActionInput) : SyncAction :=
  { id := genId, type := p.type, table := p.table, data := p.data
    timestamp := nowMs, retries := 0 }

namespace SyncStore

/-- setError from the sync store. -/
def setError (e : Option String) (s : SyncStoreState) : SyncStoreState :=
  { s with status := { s.status with last_error := e } }

/-- setSyncing from the sync store. -/
def setSyncing (b : Bool) (s : SyncStoreState) : SyncStoreState :=
  { s with status := { s.status with is_syncing := b } }

/-- addToQueue from the sync store: append and refresh pending_actions. -/
def addToQueue (genId : String) (nowMs : Int) (p : SyncActionInput) (s : SyncStoreState) : SyncStoreState :=
  { s with
    queue := s.queue ++ [mkSyncAction genId nowMs p]
    status := { s.status with pending_actions := (s.queue.length : Int) + 1 } }

/-- removeFromQueue from the sync store. -/
def removeFromQueue (actionId : String) (s : SyncStoreState) : SyncStoreState :=
  let q := s.queue.filter fun a => a.id != actionId
  { s with queue := q, status := { s.status with pending_actions := (q.length : Int) } }

/-- incrementRetries from the sync store: bump retries of the matching
action inside the store state itself. -/
def incrementRetries (actionId : String) (s : SyncStoreState) : SyncStoreState :=
  { s with
    queue := s.queue.map fun a =>
      if a.id == actionId then { a with retries := a.retries + 1 } else a }

end SyncStore

/-- The environment of one sync pass: the remote authority as observed
through fetch (response.ok per dispatched action and per uploaded row),
the network gate, whether the pass body raises at its final config-update
step, and the clock. -/
structure SyncEnv where
  remote : SyncActionType → String → SyncData → Bool
  upload : String → DbEntity → Bool
  hasInternet : Bool
  passThrows : Bool
  nowMs : Int

/-- The private state of the SyncService singleton plus the durable data
it touches: the isSyncing flag, the MMKV queue cell, the persisted
lastSyncTime of app_config, and the users and todos tables. -/
structure EngineState where
  isSyncing : Bool
  cell : SyncCell
  lastSyncTime : Option Int
  dbUsers : List DbEntity
  dbTodos : List DbEntity
deriving DecidableEq, Repr

/-- The combined application state relevant to the sync claims. The todo
store cache and the zustand sync store are carried alongside the engine:
the service module references neither, so a pass acts only on the engine
component. -/
structure AppState where
  engine : EngineState
  cache : TodoApp.TodoState
  syncStore : SyncStoreState
deriving DecidableEq, Repr

/-- The options record of syncPendingChanges; only forceSync is ever read
by the service. -/
structure SyncOptions where
  forceSync : Bool := false
  timeout : Option Int := none
  retryAttempts : Option Int := none
deriving Repr

/-- A remote request issued during a pass. -/
inductive Request where
  | dispatch (a : SyncAction)
  | upload (table : String) (id : String)
deriving DecidableEq, Repr

namespace SyncService

/-- processAction: switch on the action type and report whether the remote
call came back ok; every raise inside is caught to false. -/
def processAction (env : SyncEnv) (a : SyncAction) : Bool :=
  match a.type with
  | .CREATE => env.remote .CREATE a.table a.data
  | .UPDATE => env.remote .UPDATE a.table a.data
  | .DELETE => env.remote .DELETE a.table a.data

/-- The loop of processSyncQueue over the snapshot read at pass start.
On success the action id is removed from the durable cell. On failure the
snapshot copy of retries is incremented and only when that local value
reaches 3 is the action removed; the incremented value itself is never
written back to the cell. Also returns the dispatch trace in order. -/
def processActions (env : SyncEnv) : List SyncAction → SyncCell → SyncCell × List SyncAction
  | [], cell => (cell, [])
  | a :: rest, cell =>
    let ok := processAction env a
    let cell2 :=
      if ok then SyncStorageService.removeFromSyncQueue a.id cell
      else if a.retries + 1 ≥ 3 then SyncStorageService.removeFromSyncQueue a.id cell
      else cell
    let next := processActions env rest cell2
    (next.1, a :: next.2)

/-- processSyncQueue: snapshot the queue, then run the loop. -/
def processSyncQueue (env : SyncEnv) (cell : SyncCell) : SyncCell × List SyncAction :=
  processActions env (SyncStorageService.getSyncQueue cell) cell

/-- The per-table loop of uploadUnsyncedData over the unsynced rows
fetched up front. A successful upload marks the row synced in the table;
also returns the uploaded ids in order. -/
def uploadLoop (env : SyncEnv) (table : String) : List DbEntity → List DbEntity → List DbEntity × List String
  | [], db => (db, [])
  | e :: rest, db =>
    let ok := env.upload table e
    let db2 := if ok then markAsSynced e.id db else db
    let next := uploadLoop env table rest db2
    (next.1, e.id :: next.2)

/-- uploadUnsyncedData restricted to one table: fetch the unsynced rows,
then upload each and mark the successful ones. -/
def uploadUnsyncedFor (env : SyncEnv) (table : String) (db : List DbEntity) : List DbEntity × List String :=
  uploadLoop env table (db.filter fun e => !e.synced) db

/-- The result of one syncPendingChanges call: the post state, the boolean
outcome, and the remote requests issued during the call. -/
structure SyncResult where
  state : AppState
  ok : Bool
  requests : List Request
deriving Repr

/-- syncPendingChanges: the two early-return guards, then the pass body
under the isSyncing flag: process the queue, re-upload unsynced rows of
both tables, and stamp lastSyncTime. A pass-level raise is modelled at
the final config-update step, is caught, and turns the result false; the
finally block clears isSyncing on every path through the body. The todo
store cache and the zustand sync store are not referenced by the service
and pass through unchanged. -/
def syncPendingChanges (env : SyncEnv) (opts : SyncOptions) (st : AppState) : SyncResult :=
  if st.engine.isSyncing && !opts.forceSync then
    { state := st, ok := false, requests := [] }
  else if !env.hasInternet then
    { state := st, ok := false, requests := [] }
  else
    let e0 := { st.engine with isSyncing := true }
    let queueStep := processSyncQueue env e0.cell
    let usersStep := uploadUnsyncedFor env "users" e0.dbUsers
    let todosStep := uploadUnsyncedFor env "todos" e0.dbTodos
    let finish :=
      if env.passThrows then (e0.lastSyncTime, false) else (some env.nowMs, true)
    let e1 : EngineState :=
      { isSyncing := false
        cell := queueStep.1
        lastSyncTime := finish.1
        dbUsers := usersStep.1
        dbTodos := todosStep.1 }
    { state := { st with engine := e1 }
      ok := finish.2
      requests :=
        queueStep.2.map Request.dispatch
          ++ usersStep.2.map (Request.upload "users")
          ++ todosStep.2.map (Request.upload "todos") }

/-- forcSync: syncPendingChanges with the forceSync option set. -/
def forcSync (env : SyncEnv) (st : AppState) : SyncResult :=
  syncPendingChanges env { forceSync := true } st

/-- addToSyncQueue of the service: build the action with retries 0 and
push it through the storage helper onto the durable cell. -/
def addToSyncQueue (genId : String) (nowMs : Int) (p : SyncActionInput) (c : SyncCell) : SyncCell :=
  SyncStorageService.addToSyncQueue (mkSyncAction genId nowMs p) c

end SyncService

/-- A finite sequence of service-level enqueue calls, oldest first; each
entry carries the generated id, the Date.now() stamp and the payload. -/
def enqueueAll (ps : List (String × Int × SyncActionInput)) (c : SyncCell) : SyncCell :=
  ps.foldl (fun c q => SyncService.addToSyncQueue q.1 q.2.1 q.2.2 c) c

/-- Iterated full sync passes under a fixed environment, modelling the
engine being retriggered pass after pass. -/
def repeatPass (env : SyncEnv) : Nat → AppState → AppState
  | 0, st => st
  | n + 1, st => repeatPass env n (SyncService.syncPendingChanges env {} st).state

end SyncApp

open TodoApp SyncApp

/-
Concrete inputs used by counterexamples, witnesses and failing-input
evaluations. Each group is named after the claim that consumes it.
-/

/-- A queued CREATE action with zero retries. -/
def bugAction1 : SyncAction :=
  { id := "a1", type := .CREATE, table := "todos", data := { id := "t1" }
    timestamp := 0, retries := 0 }

/-- An environment whose remote authority rejects every dispatch and
every upload: a persistently failing intent. -/
def bugEnv1 : SyncEnv :=
  { remote := fun _ _ _ => false, upload := fun _ _ => false
    hasInternet := true, passThrows := false, nowMs := 7 }

/-- Initial application state holding exactly the failing intent. -/
def bugState1 : AppState :=
  { engine :=
      { isSyncing := false, cell := .stored [bugAction1], lastSyncTime := none
        dbUsers := [], dbTodos := [] }
    cache := initialTodoState
    syncStore := initialSyncStoreState }

/-- Environment for the concurrency claims: every remote call succeeds. -/
def cexEnv2 : SyncEnv :=
  { remote := fun _ _ _ => true, upload := fun _ _ => true
    hasInternet := true, passThrows := false, nowMs := 100 }

/-- A state in which a pass is already in flight and one intent waits. -/
def cexState2 : AppState :=
  { engine :=
      { isSyncing := true, cell := .stored [bugAction1], lastSyncTime := none
        dbUsers := [], dbTodos := [] }
    cache := initialTodoState
    syncStore := initialSyncStoreState }

/-- CREATE intent for entity t1, enqueued first. -/
def cexCreate7 : SyncAction :=
  { id := "a1", type := .CREATE, table := "todos", data := { id := "t1" }
    timestamp := 0, retries := 0 }

/-- UPDATE intent for the same entity t1, enqueued second. -/
def cexUpdate7 : SyncAction :=
  { id := "a2", type := .UPDATE, table := "todos", data := { id := "t1" }
    timestamp := 1, retries := 0 }

/-- An environment failing every CREATE and accepting everything else. -/
def cexEnv7 : SyncEnv :=
  { remote := fun ty _ _ => match ty with | .CREATE => false | _ => true
    upload := fun _ _ => true, hasInternet := true, passThrows := false, nowMs := 0 }

/-- The queue cell holding the CREATE then the dependent UPDATE. -/
def cexCell7 : SyncCell := .stored [cexCreate7, cexUpdate7]

/-- Modelled from the claim wording of C7, for refutation: checks along a
dispatch trace that every UPDATE is preceded by a CREATE for the same
data id whose remote call succeeded. The first argument accumulates the
already dispatched prefix. -/
def updatesAfterConfirmedCreate (env : SyncEnv) : List SyncAction → List SyncAction → Bool
  | _, [] => true
  | pre, a :: rest =>
    (if a.type = .UPDATE then
      pre.any fun c =>
        decide (c.type = .CREATE) && c.data.id == a.data.id && SyncService.processAction env c
    else true)
      && updatesAfterConfirmedCreate env (pre ++ [a]) rest

/-
Theorems. Helper lemmas come first, then one theorem per claim with its
witness or counterexample.
-/

/-- Pushing one action through the storage helper appends it to the parsed
queue, whatever the previous cell state was. -/
theorem getSyncQueue_addToSyncQueue (a : SyncAction) (c : SyncCell) :
    SyncStorageService.getSyncQueue (SyncStorageService.addToSyncQueue a c)
      = SyncStorageService.getSyncQueue c ++ [a] := by
  cases c <;> rfl

/-- C9: reading the persisted sync queue is total by construction and a
cell that is absent or holds unparseable text yields the empty queue; an
enqueue on top of a corrupted cell starts over from the empty queue,
discarding whatever the corrupt text once represented. -/
theorem C9_corrupt_store_reads_empty :
    SyncStorageService.getSyncQueue SyncCell.absent = [] ∧
    SyncStorageService.getSyncQueue SyncCell.unparseable = [] ∧
    ∀ a : SyncAction,
      SyncStorageService.getSyncQueue (SyncStorageService.addToSyncQueue a SyncCell.unparseable) = [a] :=
  ⟨rfl, rfl, fun _ => rfl⟩

/-- C5: any finite sequence of service-level enqueues lands in the durable
cell in enqueue order behind the previous queue content, and every
enqueued intent starts with retries 0, below the maximum of 3. Reading the
cell again is exactly what a restarted process does, so the right-hand
side is also the queue reloaded after a restart. -/
theorem C5_enqueue_durable_fifo (ps : List (String × Int × SyncActionInput)) (c : SyncCell) :
    SyncStorageService.getSyncQueue (enqueueAll ps c)
      = SyncStorageService.getSyncQueue c ++ ps.map (fun q => mkSyncAction q.1 q.2.1 q.2.2) ∧
    ∀ a ∈ ps.map (fun q => mkSyncAction q.1 q.2.1 q.2.2), a.retries < 3 := by
  constructor
  · induction ps generalizing c with
    | nil => simp [enqueueAll]
    | cons p ps ih =>
      have h1 : enqueueAll (p :: ps) c
          = enqueueAll ps (SyncService.addToSyncQueue p.1 p.2.1 p.2.2 c) := rfl
      rw [h1, ih]
      simp [SyncService.addToSyncQueue, getSyncQueue_addToSyncQueue]
  · intro a ha
    simp only [List.mem_map] at ha
    obtain ⟨q, _, rfl⟩ := ha
    simp [mkSyncAction]

/-- C2 counterexample: with a pass already in flight (isSyncing true), a
force-sync call does not return false and does not leave the queue alone:
the forceSync option bypasses the mutual-exclusion guard, the call
proceeds, dispatches the queued intent and reports success. -/
theorem C2_counterexample :
    (SyncService.forcSync cexEnv2 cexState2).ok = true ∧
    (SyncService.forcSync cexEnv2 cexState2).requests = [Request.dispatch bugAction1] ∧
    (SyncService.forcSync cexEnv2 cexState2).state.engine.cell = SyncCell.stored [] := by
  refine ⟨rfl, rfl, rfl⟩

/-- C2 (amended): a non-force call that observes isSyncing true returns
false immediately, issues no remote request and leaves the whole state,
queue included, unchanged; a force-sync call instead bypasses the
mutual-exclusion guard. -/
theorem C2_mutual_exclusion_nonforce (env : SyncEnv) (opts : SyncOptions) (st : AppState)
    (hforce : opts.forceSync = false) (hsync : st.engine.isSyncing = true) :
    SyncService.syncPendingChanges env opts st = { state := st, ok := false, requests := [] } := by
  unfold SyncService.syncPendingChanges
  simp [hforce, hsync]

/-- Witness for C2: the guard hypotheses hold at a concrete in-flight
state and the non-force call is the identity there. -/
theorem C2_mutual_exclusion_nonforce_witness :
    ({} : SyncOptions).forceSync = false ∧ cexState2.engine.isSyncing = true ∧
    SyncService.syncPendingChanges cexEnv2 {} cexState2
      = { state := cexState2, ok := false, requests := [] } :=
  ⟨rfl, rfl, C2_mutual_exclusion_nonforce cexEnv2 {} cexState2 rfl rfl⟩

/-- The queue-processing loop dispatches exactly the snapshot it was
given, in order. -/
theorem processActions_trace (env : SyncEnv) (l : List SyncAction) (c : SyncCell) :
    (SyncService.processActions env l c).2 = l := by
  induction l generalizing c with
  | nil => rfl
  | cons a rest ih => simp [SyncService.processActions, ih]

/-- C7 counterexample: on a queue holding a CREATE for entity t1 followed
by an UPDATE for the same entity, under a remote authority that rejects
every CREATE, the pass still dispatches the UPDATE, so an UPDATE is sent
before the CREATE that produced the entity ever succeeded. -/
theorem C7_counterexample :
    (SyncService.processSyncQueue cexEnv7 cexCell7).2 = [cexCreate7, cexUpdate7] ∧
    SyncService.processAction cexEnv7 cexCreate7 = false ∧
    updatesAfterConfirmedCreate cexEnv7 [] (SyncService.processSyncQueue cexEnv7 cexCell7).2 = false := by
  refine ⟨rfl, rfl, rfl⟩

/-- C7 (amended): within a pass the intents are dispatched to the remote
authority exactly in enqueue (FIFO) order - the dispatch trace equals the
queue snapshot - but later intents are dispatched regardless of earlier
outcomes, so an UPDATE enqueued after a CREATE for the same entity is sent
even when that CREATE failed in the same pass. -/
theorem C7_fifo_dispatch (env : SyncEnv) (cell : SyncCell) :
    (SyncService.processSyncQueue env cell).2 = SyncStorageService.getSyncQueue cell :=
  processActions_trace env (SyncStorageService.getSyncQueue cell) cell

/-- Under the always-failing environment a full pass leaves the cell that
holds the zero-retries intent untouched: the snapshot increment of retries
is never written back and 0 + 1 stays below 3. -/
theorem pass_preserves_bug_cell (st : AppState)
    (h : st.engine.cell = SyncCell.stored [bugAction1]) :
    (SyncService.syncPendingChanges bugEnv1 {} st).state.engine.cell
      = SyncCell.stored [bugAction1] := by
  unfold SyncService.syncPendingChanges
  by_cases hs : st.engine.isSyncing = true
  · simp [hs, h]
  · simp only [Bool.not_eq_true] at hs
    simp [hs, h, bugEnv1, SyncService.processSyncQueue, SyncService.processActions,
      SyncService.processAction, SyncStorageService.getSyncQueue, bugAction1]

/-- C1 (failing-input evaluation): an intent persisted with retries 0
whose every dispatch fails is still in the queue, with retries still 0,
after any number of full sync passes: the retry increment only ever lands
on the in-memory snapshot, is never persisted, and therefore never reaches
the maximum of 3; no removal, revert or notification ever happens. -/
theorem C1_failed_intent_retried_forever (n : Nat) :
    (repeatPass bugEnv1 n bugState1).engine.cell = SyncCell.stored [bugAction1] := by
  have key : ∀ (m : Nat) (st : AppState), st.engine.cell = SyncCell.stored [bugAction1] →
      (repeatPass bugEnv1 m st).engine.cell = SyncCell.stored [bugAction1] := by
    intro m
    induction m with
    | zero => intro st h; exact h
    | succ k ih =>
      intro st h
      exact ih _ (pass_preserves_bug_cell st h)
  exact key n bugState1 rfl

/-- An environment whose pass body raises at the final config-update step. -/
def cexEnv8 : SyncEnv :=
  { remote := fun _ _ _ => true, upload := fun _ _ => true
    hasInternet := true, passThrows := true, nowMs := 5 }

/-- An idle state with an empty error slot in the sync store status. -/
def cexState8 : AppState :=
  { engine :=
      { isSyncing := false, cell := .stored [bugAction1], lastSyncTime := none
        dbUsers := [], dbTodos := [] }
    cache := initialTodoState
    syncStore := initialSyncStoreState }

/-- C8 counterexample: a pass whose body raises is caught and returns
false, but nothing is recorded in SyncStatus.last_error - the sync store
status is byte-for-byte what it was, still holding no error. -/
theorem C8_counterexample :
    cexEnv8.passThrows = true ∧
    (SyncService.syncPendingChanges cexEnv8 {} cexState8).ok = false ∧
    (SyncService.syncPendingChanges cexEnv8 {} cexState8).state.syncStore.status.last_error = none ∧
    (SyncService.syncPendingChanges cexEnv8 {} cexState8).state.syncStore = cexState8.syncStore := by
  refine ⟨rfl, rfl, rfl, rfl⟩

/-- C8 (amended): every pass that makes it past the two guards clears the
engine isSyncing flag on every exit path, exception included; a pass-level
exception is caught and surfaces only as a false return value - the
zustand sync store, SyncStatus.last_error included, is never written by
the engine. -/
theorem C8_issyncing_cleared (env : SyncEnv) (opts : SyncOptions) (st : AppState)
    (hgate : (st.engine.isSyncing && !opts.forceSync) = false)
    (hnet : env.hasInternet = true) :
    (SyncService.syncPendingChanges env opts st).state.engine.isSyncing = false ∧
    (SyncService.syncPendingChanges env opts st).state.syncStore = st.syncStore ∧
    (SyncService.syncPendingChanges env opts st).ok = !env.passThrows := by
  unfold SyncService.syncPendingChanges
  rw [hgate, hnet]
  cases hp : env.passThrows <;> simp [hp]

/-- Witness for C8: the guard hypotheses hold at the concrete raising
environment and idle state, and the conclusions evaluate there. -/
theorem C8_issyncing_cleared_witness :
    (cexState8.engine.isSyncing && !({} : SyncOptions).forceSync) = false ∧
    cexEnv8.hasInternet = true ∧
    ((SyncService.syncPendingChanges cexEnv8 {} cexState8).state.engine.isSyncing = false ∧
      (SyncService.syncPendingChanges cexEnv8 {} cexState8).state.syncStore = cexState8.syncStore ∧
      (SyncService.syncPendingChanges cexEnv8 {} cexState8).ok = !cexEnv8.passThrows) :=
  ⟨rfl, rfl, C8_issyncing_cleared cexEnv8 {} cexState8 rfl rfl⟩

/-- The intent dispatched in the C4 scenario. -/
def cexA4 : SyncAction :=
  { id := "a1", type := .CREATE, table := "todos", data := { id := "t1" }
    timestamp := 0, retries := 0 }

/-- An environment where every dispatch succeeds but the separate
re-upload of unsynced rows fails. -/
def cexEnv4 : SyncEnv :=
  { remote := fun _ _ _ => true, upload := fun _ _ => false
    hasInternet := true, passThrows := false, nowMs := 50 }

/-- The still-tracked optimistic cache entry matching the intent. -/
def cexCacheTodo4 : Todo :=
  { id := "t1", user_id := "u1", title := "milk", completed := false
    priority := .medium, created_at := 0, updated_at := 0, synced := false
    isOptimistic := some true }

/-- State for C4: the intent queued, its entity unsynced in the durable
store, and a matching optimistic entry tracked in the cache. -/
def cexState4 : AppState :=
  { engine :=
      { isSyncing := false, cell := .stored [cexA4], lastSyncTime := none
        dbUsers := [], dbTodos := [{ id := "t1", synced := false }] }
    cache :=
      { initialTodoState with
        todos := [cexCacheTodo4]
        stats := { total := 1, completed := 0, pending := 1, overdue := 0 } }
    syncStore := initialSyncStoreState }

/-- Removal through the storage helper filters the parsed queue, whatever
the previous cell state was. -/
theorem getSyncQueue_removeFromSyncQueue (i : String) (c : SyncCell) :
    SyncStorageService.getSyncQueue (SyncStorageService.removeFromSyncQueue i c)
      = (SyncStorageService.getSyncQueue c).filter (fun a => a.id != i) := by
  cases c <;> rfl

/-- After a removal no remaining action carries the removed id. -/
theorem removeFromSyncQueue_absent (i : String) (c : SyncCell) :
    ∀ b ∈ SyncStorageService.getSyncQueue (SyncStorageService.removeFromSyncQueue i c),
      b.id ≠ i := by
  intro b hb
  rw [getSyncQueue_removeFromSyncQueue] at hb
  have := (List.mem_filter.mp hb).2
  simpa [bne_iff_ne] using this

/-- The queue-processing loop never reintroduces an id that is already
absent from the cell: its only writes are removals. -/
theorem processActions_preserves_absent (env : SyncEnv) (i : String) :
    ∀ (l : List SyncAction) (c : SyncCell),
      (∀ b ∈ SyncStorageService.getSyncQueue c, b.id ≠ i) →
      ∀ b ∈ SyncStorageService.getSyncQueue (SyncService.processActions env l c).1, b.id ≠ i := by
  intro l
  induction l with
  | nil => intro c hc; exact hc
  | cons a rest ih =>
    intro c hc
    simp only [SyncService.processActions]
    apply ih
    by_cases hok : SyncService.processAction env a = true
    · simp only [hok, if_true]
      intro b hb
      rw [getSyncQueue_removeFromSyncQueue] at hb
      exact hc b (List.mem_filter.mp hb).1
    · simp only [Bool.not_eq_true] at hok
      simp only [hok]
      by_cases hr : a.retries + 1 ≥ 3
      · simp only [if_pos hr, Bool.false_eq_true, if_false]
        intro b hb
        rw [getSyncQueue_removeFromSyncQueue] at hb
        exact hc b (List.mem_filter.mp hb).1
      · simpa [if_neg hr] using hc

/-- If an action of the snapshot dispatches successfully, its id is gone
from the cell once the loop finishes. -/
theorem processActions_success_removes (env : SyncEnv) (a : SyncAction)
    (hok : SyncService.processAction env a = true) :
    ∀ (l : List SyncAction) (c : SyncCell), a ∈ l →
      ∀ b ∈ SyncStorageService.getSyncQueue (SyncService.processActions env l c).1, b.id ≠ a.id := by
  intro l
  induction l with
  | nil => intro c h; exact absurd h (List.not_mem_nil a)
  | cons x rest ih =>
    intro c hmem
    rcases List.mem_cons.mp hmem with hx | hrest
    · subst hx
      simp only [SyncService.processActions, hok, if_true]
      exact processActions_preserves_absent env a.id rest _
        (removeFromSyncQueue_absent a.id c)
    · simp only [SyncService.processActions]
      exact ih _ hrest

/-- C4 (amended): when dispatching an intent succeeds the pass does remove
it from the durable queue; but marking the entity synced happens only in
the independent uploadUnsyncedData walk over unsynced rows (on that walk's
own success), and the optimistic cache is never touched by the pass - no
confirm call, no temp-id replacement. This theorem is the surviving
removal half. -/
theorem C4_success_removes (env : SyncEnv) (cell : SyncCell) (a : SyncAction)
    (hmem : a ∈ SyncStorageService.getSyncQueue cell)
    (hok : SyncService.processAction env a = true) :
    ∀ b ∈ SyncStorageService.getSyncQueue (SyncService.processSyncQueue env cell).1,
      b.id ≠ a.id :=
  processActions_success_removes env a hok _ cell hmem

/-- Witness for C4: at a one-intent queue with a succeeding remote, the
hypotheses hold and the intent id is gone after the pass. -/
theorem C4_success_removes_witness :
    cexA4 ∈ SyncStorageService.getSyncQueue (SyncCell.stored [cexA4]) ∧
    SyncService.processAction cexEnv4 cexA4 = true ∧
    ∀ b ∈ SyncStorageService.getSyncQueue
        (SyncService.processSyncQueue cexEnv4 (SyncCell.stored [cexA4])).1,
      b.id ≠ cexA4.id :=
  ⟨by simp [SyncStorageService.getSyncQueue], rfl,
    C4_success_removes cexEnv4 (SyncCell.stored [cexA4]) cexA4
      (by simp [SyncStorageService.getSyncQueue]) rfl⟩

/-- C4 counterexample: the dispatch of the queued intent succeeds and the
intent leaves the queue, yet the underlying entity row keeps synced false
(the separate re-upload failed) and the optimistic cache entry is still
there, still flagged optimistic, its temp id never replaced - the pass
called no confirm and marked nothing synced as part of intent handling. -/
theorem C4_counterexample :
    SyncService.processAction cexEnv4 cexA4 = true ∧
    (SyncService.syncPendingChanges cexEnv4 {} cexState4).state.engine.cell
      = SyncCell.stored [] ∧
    (SyncService.syncPendingChanges cexEnv4 {} cexState4).state.engine.dbTodos
      = [{ id := "t1", synced := false }] ∧
    (SyncService.syncPendingChanges cexEnv4 {} cexState4).state.cache = cexState4.cache ∧
    cexState4.cache.todos.map Todo.isOptimistic = [some true] := by
  refine ⟨rfl, rfl, rfl, rfl, rfl⟩

/-- findIndex misses: when no todo carries the id, setFirst finds
nothing. -/
theorem setFirst_eq_none (i : String) (f : Todo → Todo) :
    ∀ l : List Todo, i ∉ l.map Todo.id → setFirst i f l = none := by
  intro l
  induction l with
  | nil => intro _; rfl
  | cons t ts ih =>
    intro h
    simp only [List.map_cons, List.mem_cons] at h
    push_neg at h
    obtain ⟨h1, h2⟩ := h
    have hne : t.id ≠ i := fun e => h1 e.symm
    simp only [setFirst, beq_eq_false_iff_ne.mpr hne, Bool.false_eq_true, if_false,
      ih h2, Option.map_none']

/-- findIndex misses: when no todo carries the id, removeFirst removes
nothing. -/
theorem removeFirst_eq_none (i : String) :
    ∀ l : List Todo, i ∉ l.map Todo.id → removeFirst i l = none := by
  intro l
  induction l with
  | nil => intro _; rfl
  | cons t ts ih =>
    intro h
    simp only [List.map_cons, List.mem_cons] at h
    push_neg at h
    obtain ⟨h1, h2⟩ := h
    have hne : t.id ≠ i := fun e => h1 e.symm
    simp only [removeFirst, beq_eq_false_iff_ne.mpr hne, Bool.false_eq_true, if_false,
      ih h2, Option.map_none']

/-- C10: every todo-store operation keyed by an id that is absent from the
visible list - updateTodo, deleteTodo, optimisticUpdate, optimisticDelete -
is a no-op leaving the whole store state (todos, stats, filters, flags)
unchanged, and none of them can fail. -/
theorem C10_missing_id_noop (s : TodoState) (i : String) (u : TodoUpdates)
    (h : i ∉ s.todos.map Todo.id) :
    updateTodo i u s = s ∧ deleteTodo i s = s ∧
    optimisticUpdate i u s = s ∧ optimisticDelete i s = s := by
  have h1 := setFirst_eq_none i (fun t => mergeTodo t u) s.todos h
  have h2 := removeFirst_eq_none i s.todos h
  have h3 := setFirst_eq_none i (fun t => optimisticMerge t u) s.todos h
  exact ⟨by simp [updateTodo, h1], by simp [deleteTodo, h2],
    by simp [optimisticUpdate, h3], by simp [optimisticDelete, h2]⟩

/-- A one-element store used by witnesses of the todo-store claims. -/
def wTodo10 : Todo :=
  { id := "a", user_id := "u", title := "t", completed := false
    priority := .low, created_at := 0, updated_at := 0, synced := true }

/-- A store holding the single todo with id a. -/
def wState10 : TodoState :=
  { initialTodoState with
    todos := [wTodo10]
    stats := { total := 1, completed := 0, pending := 1, overdue := 0 } }

/-- Witness for C10: the id zzz is absent from the one-element store and
every keyed operation is the identity there. -/
theorem C10_missing_id_noop_witness :
    "zzz" ∉ wState10.todos.map Todo.id ∧
    (updateTodo "zzz" {} wState10 = wState10 ∧ deleteTodo "zzz" wState10 = wState10 ∧
      optimisticUpdate "zzz" {} wState10 = wState10 ∧
      optimisticDelete "zzz" wState10 = wState10) :=
  ⟨by decide, C10_missing_id_noop wState10 "zzz" {} (by decide)⟩

/-- Under distinct ids, the id removed by removeFirst is gone from the
remaining list. -/
theorem removeFirst_some_not_mem (i : String) :
    ∀ (l : List Todo) (t : Todo) (l2 : List Todo),
      (l.map Todo.id).Nodup → removeFirst i l = some (t, l2) → i ∉ l2.map Todo.id := by
  intro l
  induction l with
  | nil => intro t l2 _ h; simp [removeFirst] at h
  | cons x xs ih =>
    intro t l2 hn h
    simp only [List.map_cons, List.nodup_cons] at hn
    obtain ⟨hx, hxs⟩ := hn
    by_cases hb : x.id = i
    · simp only [removeFirst, beq_iff_eq, hb, if_true, Option.some.injEq, Prod.mk.injEq] at h
      obtain ⟨rfl, rfl⟩ := h
      exact hb ▸ hx
    · simp only [removeFirst, beq_eq_false_iff_ne.mpr hb, Bool.false_eq_true, if_false,
        Option.map_eq_some'] at h
      obtain ⟨⟨t0, l0⟩, hrec, heq⟩ := h
      simp only [Prod.mk.injEq] at heq
      obtain ⟨rfl, rfl⟩ := heq
      simp only [List.map_cons, List.mem_cons]
      push_neg
      exact ⟨fun e => hb e.symm, ih t0 l0 hxs hrec⟩

/-- Behaviour of a second constant-replacement setFirst on the list the
first one produced, under distinct ids: finding the replacement again is
the identity, and a replacement carrying a fresh id makes the temp id
unfindable. -/
theorem setFirst_const_again (i : String) (r : Todo) :
    ∀ (l : List Todo) (t : Todo) (l2 : List Todo),
      (l.map Todo.id).Nodup → setFirst i (fun _ => r) l = some (t, l2) →
      (r.id = i → setFirst i (fun _ => r) l2 = some (r, l2)) ∧
      (r.id ≠ i → setFirst i (fun _ => r) l2 = none) := by
  intro l
  induction l with
  | nil => intro t l2 _ h; simp [setFirst] at h
  | cons x xs ih =>
    intro t l2 hn h
    simp only [List.map_cons, List.nodup_cons] at hn
    obtain ⟨hx, hxs⟩ := hn
    by_cases hb : x.id = i
    · simp only [setFirst, beq_iff_eq, hb, if_true, Option.some.injEq, Prod.mk.injEq] at h
      obtain ⟨rfl, rfl⟩ := h
      constructor
      · intro hr
        simp [setFirst, beq_iff_eq, hr]
      · intro hr
        have hmem : i ∉ xs.map Todo.id := hb ▸ hx
        simp only [setFirst, beq_eq_false_iff_ne.mpr hr, Bool.false_eq_true, if_false,
          setFirst_eq_none i _ xs hmem, Option.map_none']
    · simp only [setFirst, beq_eq_false_iff_ne.mpr hb, Bool.false_eq_true, if_false,
        Option.map_eq_some'] at h
      obtain ⟨⟨t0, l0⟩, hrec, heq⟩ := h
      simp only [Prod.mk.injEq] at heq
      obtain ⟨rfl, rfl⟩ := heq
      obtain ⟨ha, hb2⟩ := ih t0 l0 hxs hrec
      constructor
      · intro hr
        simp only [setFirst, beq_eq_false_iff_ne.mpr hb, Bool.false_eq_true, if_false,
          ha hr, Option.map_some']
      · intro hr
        simp only [setFirst, beq_eq_false_iff_ne.mpr hb, Bool.false_eq_true, if_false,
          hb2 hr, Option.map_none']

/-- C6: on a store whose visible ids are distinct, confirmOptimistic and
revertOptimistic are idempotent - the second call with the same arguments
changes nothing - and both are silent no-ops when the temp id is not in
the visible set. -/
theorem C6_confirm_revert_idempotent (s : TodoState) (tempId : String) (realTodo : Todo)
    (hn : (s.todos.map Todo.id).Nodup) :
    revertOptimistic tempId (revertOptimistic tempId s) = revertOptimistic tempId s ∧
    confirmOptimistic tempId realTodo (confirmOptimistic tempId realTodo s)
      = confirmOptimistic tempId realTodo s ∧
    (tempId ∉ s.todos.map Todo.id →
      revertOptimistic tempId s = s ∧ confirmOptimistic tempId realTodo s = s) := by
  refine ⟨?_, ?_, ?_⟩
  · cases h : removeFirst tempId s.todos with
    | none =>
      have e : revertOptimistic tempId s = s := by simp [revertOptimistic, h]
      rw [e]; exact e
    | some p =>
      obtain ⟨old, l2⟩ := p
      have e : revertOptimistic tempId s
          = { s with todos := l2, stats := statsAfterRemove s.stats old.completed } := by
        simp [revertOptimistic, h]
      have hnot : tempId ∉ l2.map Todo.id := removeFirst_some_not_mem tempId s.todos old l2 hn h
      rw [e]
      simp [revertOptimistic, removeFirst_eq_none tempId l2 hnot]
  · cases h : setFirst tempId (fun _ => realTodo) s.todos with
    | none =>
      have e : confirmOptimistic tempId realTodo s = s := by simp [confirmOptimistic, h]
      rw [e]; exact e
    | some p =>
      obtain ⟨old, l2⟩ := p
      have e : confirmOptimistic tempId realTodo s = { s with todos := l2 } := by
        simp [confirmOptimistic, h]
      rw [e]
      by_cases hr : realTodo.id = tempId
      · have h2 := (setFirst_const_again tempId realTodo s.todos old l2 hn h).1 hr
        simp [confirmOptimistic, h2]
      · have h2 := (setFirst_const_again tempId realTodo s.todos old l2 hn h).2 hr
        simp [confirmOptimistic, h2]
  · intro hmem
    exact ⟨by simp [revertOptimistic, removeFirst_eq_none tempId s.todos hmem],
      by simp [confirmOptimistic, setFirst_eq_none tempId _ s.todos hmem]⟩

/-- Second todo for the C6 witness store. -/
def wTodo6b : Todo :=
  { id := "b", user_id := "u", title := "t2", completed := true
    priority := .high, created_at := 0, updated_at := 0, synced := true }

/-- A two-element store with distinct ids a and b. -/
def wState6 : TodoState :=
  { initialTodoState with
    todos := [wTodo10, wTodo6b]
    stats := { total := 2, completed := 1, pending := 1, overdue := 0 } }

/-- The confirmed server-side todo used in the C6 witness. -/
def wReal6 : Todo :=
  { id := "r", user_id := "u", title := "t", completed := false
    priority := .low, created_at := 1, updated_at := 1, synced := true }

/-- Witness for C6: the two-element store has distinct ids and the
idempotence conclusions hold there for temp id a. -/
theorem C6_confirm_revert_idempotent_witness :
    (wState6.todos.map Todo.id).Nodup ∧
    (revertOptimistic "a" (revertOptimistic "a" wState6) = revertOptimistic "a" wState6 ∧
      confirmOptimistic "a" wReal6 (confirmOptimistic "a" wReal6 wState6)
        = confirmOptimistic "a" wReal6 wState6 ∧
      ("a" ∉ wState6.todos.map Todo.id →
        revertOptimistic "a" wState6 = wState6 ∧ confirmOptimistic "a" wReal6 wState6 = wState6)) :=
  ⟨by decide, C6_confirm_revert_idempotent wState6 "a" wReal6 (by decide)⟩

/-- Replacing one element in place preserves the list length. -/
theorem setFirst_some_length (i : String) (f : Todo → Todo) :
    ∀ (l : List Todo) (t : Todo) (l2 : List Todo),
      setFirst i f l = some (t, l2) → l2.length = l.length := by
  intro l
  induction l with
  | nil => intro t l2 h; simp [setFirst] at h
  | cons x xs ih =>
    intro t l2 h
    by_cases hb : x.id = i
    · simp only [setFirst, beq_iff_eq, hb, if_true, Option.some.injEq, Prod.mk.injEq] at h
      obtain ⟨rfl, rfl⟩ := h
      simp
    · simp only [setFirst, beq_eq_false_iff_ne.mpr hb, Bool.false_eq_true, if_false,
        Option.map_eq_some'] at h
      obtain ⟨⟨t0, l0⟩, hrec, heq⟩ := h
      simp only [Prod.mk.injEq] at heq
      obtain ⟨rfl, rfl⟩ := heq
      simp [ih t0 l0 hrec]

/-- Splicing one element out shrinks the list length by one. -/
theorem removeFirst_some_length (i : String) :
    ∀ (l : List Todo) (t : Todo) (l2 : List Todo),
      removeFirst i l = some (t, l2) → l.length = l2.length + 1 := by
  intro l
  induction l with
  | nil => intro t l2 h; simp [removeFirst] at h
  | cons x xs ih =>
    intro t l2 h
    by_cases hb : x.id = i
    · simp only [removeFirst, beq_iff_eq, hb, if_true, Option.some.injEq, Prod.mk.injEq] at h
      obtain ⟨rfl, rfl⟩ := h
      simp
    · simp only [removeFirst, beq_eq_false_iff_ne.mpr hb, Bool.false_eq_true, if_false,
        Option.map_eq_some'] at h
      obtain ⟨⟨t0, l0⟩, hrec, heq⟩ := h
      simp only [Prod.mk.injEq] at heq
      obtain ⟨rfl, rfl⟩ := heq
      simp [ih t0 l0 hrec]

/-- The full recomputation assigns total the length of the list: the fold
only ever touches the three other counters. -/
theorem calculateStats_total (nowMs : Int) (l : List Todo) :
    (calculateStats nowMs l).total = (l.length : Int) := by
  have key : ∀ (m : List Todo) (st : Stats),
      (m.foldl
        (fun st t =>
          if t.completed then { st with completed := st.completed + 1 }
          else
            { st with
              pending := st.pending + 1
              overdue := if isOverdue nowMs t then st.overdue + 1 else st.overdue })
        st).total = st.total := by
    intro m
    induction m with
    | nil => intro st; rfl
    | cons a as ih =>
      intro st
      cases ha : a.completed <;> simp [List.foldl_cons, ha, ih]
  simpa [calculateStats] using key l _

/-- The invariant tying the incrementally maintained stats to the list:
total mirrors the list length and completed plus pending exhaust it. -/
def StatsInv (s : TodoState) : Prop :=
  s.stats.total = (s.todos.length : Int) ∧
  s.stats.completed + s.stats.pending = s.stats.total

/-- Every optimistic-layer operation preserves the stats invariant. -/
theorem applyTodoOp_statsInv (s : TodoState) (op : TodoOp) (h : StatsInv s) :
    StatsInv (applyTodoOp s op) := by
  obtain ⟨h1, h2⟩ := h
  cases op with
  | add tempId nowMs d =>
    cases hd : d.completed <;>
      · simp only [applyTodoOp, optimisticAdd, StatsInv, statsAfterInsert, hd,
          List.length_cons, Bool.false_eq_true, if_false, if_true]
        constructor <;> push_cast <;> omega
  | update i u =>
    simp only [applyTodoOp, optimisticUpdate]
    cases h3 : setFirst i (fun t => optimisticMerge t u) s.todos with
    | none => exact ⟨h1, h2⟩
    | some p =>
      obtain ⟨old, l2⟩ := p
      have hlen := setFirst_some_length i _ s.todos old l2 h3
      show StatsInv
        { s with
          todos := l2
          stats :=
            match u.completed with
            | some b => if b ≠ old.completed then statsAfterToggle s.stats b else s.stats
            | none => s.stats }
      cases hu : u.completed with
      | none =>
        refine ⟨?_, h2⟩
        show s.stats.total = (l2.length : Int)
        rw [hlen]; exact h1
      | some b =>
        by_cases hbo : b ≠ old.completed
        · cases hb : b <;>
            · subst hb
              simp only [StatsInv, if_pos hbo, statsAfterToggle, Bool.false_eq_true,
                if_false, if_true]
              constructor
              · show s.stats.total = (l2.length : Int)
                rw [hlen]; exact h1
              · omega
        · simp only [StatsInv, if_neg hbo]
          refine ⟨?_, h2⟩
          show s.stats.total = (l2.length : Int)
          rw [hlen]; exact h1
  | delete i =>
    simp only [applyTodoOp, optimisticDelete]
    cases h3 : removeFirst i s.todos with
    | none => exact ⟨h1, h2⟩
    | some p =>
      obtain ⟨old, l2⟩ := p
      have hlen := removeFirst_some_length i s.todos old l2 h3
      cases ho : old.completed <;>
        · simp only [StatsInv, statsAfterRemove, ho, Bool.false_eq_true, if_false, if_true]
          constructor <;> [skip; omega]
          rw [h1, hlen]; push_cast; omega
  | revert tempId =>
    simp only [applyTodoOp, revertOptimistic]
    cases h3 : removeFirst tempId s.todos with
    | none => exact ⟨h1, h2⟩
    | some p =>
      obtain ⟨old, l2⟩ := p
      have hlen := removeFirst_some_length tempId s.todos old l2 h3
      cases ho : old.completed <;>
        · simp only [StatsInv, statsAfterRemove, ho, Bool.false_eq_true, if_false, if_true]
          constructor <;> [skip; omega]
          rw [h1, hlen]; push_cast; omega
  | confirm tempId r =>
    simp only [applyTodoOp, confirmOptimistic]
    cases h3 : setFirst tempId (fun _ => r) s.todos with
    | none => exact ⟨h1, h2⟩
    | some p =>
      obtain ⟨old, l2⟩ := p
      have hlen := setFirst_some_length tempId _ s.todos old l2 h3
      refine ⟨?_, h2⟩
      simp only [hlen]
      exact h1

/-- The stats invariant survives any finite operation sequence. -/
theorem runTodoOps_statsInv (ops : List TodoOp) :
    ∀ s : TodoState, StatsInv s → StatsInv (runTodoOps s ops) := by
  induction ops with
  | nil => intro s h; exact h
  | cons op rest ih =>
    intro s h
    exact ih _ (applyTodoOp_statsInv s op h)

/-- C3 (amended): after every finite sequence of optimistic add, update,
delete, confirm and revert operations from the initial store, the
maintained total equals the total of a full recomputation (the visible
list length) and the maintained completed and pending counters always sum
to it; the individual completed, pending and overdue counters are not kept
in step with a full recomputation (overdue is never incrementally
maintained and confirmOptimistic adjusts no counter). -/
theorem C3_total_consistent (ops : List TodoOp) (nowMs : Int) :
    (runTodoOps initialTodoState ops).stats.total
      = (calculateStats nowMs (runTodoOps initialTodoState ops).todos).total ∧
    (runTodoOps initialTodoState ops).stats.completed
        + (runTodoOps initialTodoState ops).stats.pending
      = (runTodoOps initialTodoState ops).stats.total := by
  have hinv := runTodoOps_statsInv ops initialTodoState ⟨rfl, rfl⟩
  exact ⟨by rw [calculateStats_total]; exact hinv.1, hinv.2⟩

/-- Creation payload of the first C3 counterexample operation. -/
def cexD3a : TodoData :=
  { user_id := "u1", title := "a", completed := false, priority := .medium }

/-- The authoritative todo confirming the first add, arriving completed. -/
def cexReal3 : Todo :=
  { id := "r1", user_id := "u1", title := "a", completed := true
    priority := .medium, created_at := 0, updated_at := 0, synced := true }

/-- Creation payload of the second add, carrying a past due date. -/
def cexD3b : TodoData :=
  { user_id := "u1", title := "b", completed := false, priority := .medium
    due_date := some 5 }

/-- The C3 counterexample operation sequence: add, confirm with a
completed todo, add one overdue todo. -/
def cexOps3 : List TodoOp :=
  [.add "tempX" 1 cexD3a, .confirm "tempX" cexReal3, .add "tempY" 2 cexD3b]

/-- C3 counterexample: after the three-operation sequence the maintained
stats and the full recomputation at now = 10 disagree - the maintained
record still shows zero completed, two pending and zero overdue while the
visible list holds one completed todo and one pending overdue todo; only
total agrees. -/
theorem C3_counterexample :
    (runTodoOps initialTodoState cexOps3).stats
        = { total := 2, completed := 0, pending := 2, overdue := 0 } ∧
    calculateStats 10 (runTodoOps initialTodoState cexOps3).todos
        = { total := 2, completed := 1, pending := 1, overdue := 1 } ∧
    (runTodoOps initialTodoState cexOps3).stats
        ≠ calculateStats 10 (runTodoOps initialTodoState cexOps3).todos := by
  refine ⟨by decide, by decide, by decide⟩
